import Mathlib

/-!
Verification of the process-launch and job-control core of `shell.c`.

The embedding models the launch pipeline of the shell: token predicates,
input/output redirection, background-marker stripping, PATH resolution,
process-group and signal setup in the child, and the terminal handoff
performed by the parent.  Operating-system effects (fopen, execv, wait,
tcsetpgrp, tcsetattr, setpgid, signal) are modelled either as events in a
trace or through oracles describing which files open and which paths
execute successfully.
-/

/-- Process id, as the C `pid_t`.  The value `-1` is the error return of
`fork`; the value `0` marks the child continuation. -/
abbrev Pid := Int

/-- Disposition of a signal: default behaviour or ignored, as set by
`signal(sig, SIG_DFL)` and `signal(sig, SIG_IGN)` in the source. -/
inductive Disp where
  | dfl
  | ign
  deriving DecidableEq, Repr

/-- The three job-control signal dispositions the shell manipulates:
SIGINT, SIGTSTP, SIGTTOU (lines 349-351 and 499-501 of the source). -/
structure Dispositions where
  sigint : Disp
  sigtstp : Disp
  sigttou : Disp
  deriving DecidableEq, Repr

/-- A standard stream binding of the child: either inherited from the
shell, or rebound by `dup2` to a named file. -/
inductive StdStream where
  | inherited
  | file (name : String)
  deriving DecidableEq, Repr

/-- The standard input and output bindings of the child process. -/
structure IoState where
  stdin : StdStream
  stdout : StdStream
  deriving DecidableEq, Repr

/-- Environment oracles for the child: whether `fopen(f, "r")` succeeds,
whether `fopen(f, "w")` succeeds (create-or-truncate), and whether
`execv(path, ...)` replaces the process image. -/
structure Oracles where
  openR : String → Bool
  openW : String → Bool
  execOk : String → Bool

/-- Source `program_needs_io_redirection` (lines 469-480): scans the
tokens for one equal to the input or the output redirection operator. -/
def program_needs_io_redirection (tokens : List String) : Bool :=
  tokens.any (fun t => t = "<" || t = ">")

/-- Source `program_needs_put_in_background` (lines 504-514): scans the
tokens for one equal to the background marker. -/
def program_needs_put_in_background (tokens : List String) : Bool :=
  tokens.any (fun t => t = "&")

/-- Source `cmd_needs_path_resolution` (lines 465-467): a command needs
PATH resolution exactly when `strchr(cmd, '/')` finds no separator.  The
`strchr` scan is modelled on the character sequence of the string. -/
def cmd_needs_path_resolution (cmd : String) : Bool :=
  !(cmd.data.contains '/')

/-- Result of `process_redirects_io`: either the effective argument
vector (the prefix of the original vector that `execv` will read, because
the source writes the null sentinel into the slot of the first operator
found) together with the new stream bindings, or a crash.  The crash arm
models the undefined behaviour of the source when `fopen` fails (it feeds
the null stream straight into `fileno`/`dup2` with no check, lines
485-486 and 490-491) and when the operator is the last token (the operand
slot read at `argv[i + 1]` is the null sentinel, and `fopen` receives a
null pointer). -/
inductive RedirResult where
  | ok (argv : List String) (strm : IoState)
  | crash
  deriving DecidableEq, Repr

/-- Source `process_redirects_io` (lines 482-496).  The scan walks the
argument vector left to right; at the first token equal to `"<"` it opens
the following token for reading, rebinds standard input, writes the null
sentinel over the operator slot and returns, so the effective vector ends
just before the operator; symmetrically for `">"` with standard output.
Tokens after the first operator are never examined. -/
def process_redirects_io (o : Oracles) : List String → IoState → RedirResult
  | [], s => RedirResult.ok [] s
  | t :: rest, s =>
    if t = "<" then
      match rest with
      | [] => RedirResult.crash
      | f :: _ =>
        if o.openR f then RedirResult.ok [] { s with stdin := StdStream.file f }
        else RedirResult.crash
    else if t = ">" then
      match rest with
      | [] => RedirResult.crash
      | f :: _ =>
        if o.openW f then RedirResult.ok [] { s with stdout := StdStream.file f }
        else RedirResult.crash
    else
      match process_redirects_io o rest s with
      | RedirResult.ok argv s2 => RedirResult.ok (t :: argv) s2
      | RedirResult.crash => RedirResult.crash

/-- Source `cmd_line_remove_put_process_in_background_flag` (lines
529-538): walks the (already null-terminated) vector and writes the null
sentinel over the first `"&"` slot, truncating the effective vector
there. -/
def cmd_line_remove_put_process_in_background_flag : List String → List String
  | [] => []
  | t :: rest =>
    if t = "&" then []
    else t :: cmd_line_remove_put_process_in_background_flag rest

/-- The first half of source `execute_cmd` (lines 418-435): the argument
vector is a copy of the tokens; redirection is applied when requested and
then the background marker is stripped when present.  Returns the
effective argument vector and stream bindings handed to the resolution
stage, or a crash inherited from `process_redirects_io`. -/
def strip_stage (o : Oracles) (tokens : List String) (s : IoState) : RedirResult :=
  match (if program_needs_io_redirection tokens
         then process_redirects_io o tokens s
         else RedirResult.ok tokens s) with
  | RedirResult.crash => RedirResult.crash
  | RedirResult.ok argv1 s1 =>
      RedirResult.ok
        (if program_needs_put_in_background tokens
         then cmd_line_remove_put_process_in_background_flag argv1
         else argv1) s1

/-- Field splitting of a character sequence at a separator, as iterated
`strsep`: every field is yielded, empty fields included, and the empty
sequence yields one empty field. -/
def splitChars (sep : Char) : List Char → List (List Char)
  | [] => [[]]
  | c :: cs =>
    if c = sep then [] :: splitChars sep cs
    else
      match splitChars sep cs with
      | [] => [[c]]
      | g :: gs => (c :: g) :: gs

/-- The directory candidates produced by the `strsep` loop of
`execute_cmd` (line 442): `getenv("PATH")` returning a null pointer
(variable unset) makes `strsep` yield nothing at all, while a non-null
value is split on `":"`, empty fields included (for the empty string,
`strsep` yields one empty field). -/
def strsep_all : Option String → List String
  | none => []
  | some s => (splitChars ':' s.data).map String.mk

/-- Outcome of the exec stage of `execute_cmd`: the process image was
replaced by `execv` at a path with a final argument vector and stream
bindings, or the function returned `-1`, or the undefined behaviour of a
null `cmd_argv[0]` reaching `strchr` was hit. -/
inductive ExecResult where
  | replaced (path : String) (argv : List String) (strm : IoState)
  | err
  | crash
  deriving DecidableEq, Repr

/-- The resolution loop of source `execute_cmd` (lines 442-456): for each
directory yielded by `strsep`, build `dir + "/" + cmd`, substitute it as
`argv[0]` and attempt `execv`; on failure restore the original `argv[0]`
(the recursive call receives the unchanged `cmd0`) and continue.  The
first component of the result is the value held by `argv[0]` when the
loop finishes: the successful full path, or the restored original name
when every candidate failed. -/
def resolve_loop (execOk : String → Bool) (cmd0 : String) (rest : List String)
    (s : IoState) : List String → String × ExecResult
  | [] => (cmd0, ExecResult.err)
  | d :: ds =>
    let fp := d ++ "/" ++ cmd0
    if execOk fp then (fp, ExecResult.replaced fp (fp :: rest) s)
    else resolve_loop execOk cmd0 rest s ds

/-- The `execv` attempts issued by the resolution loop, in order: every
candidate up to and including the first successful one. -/
def attempted_paths (execOk : String → Bool) (cmd0 : String) : List String → List String
  | [] => []
  | d :: ds =>
    let fp := d ++ "/" ++ cmd0
    if execOk fp then [fp] else fp :: attempted_paths execOk cmd0 ds

/-- The second half of source `execute_cmd` (lines 437-461): a bare name
goes through the PATH resolution loop; a name holding a path separator is
handed to `execv` directly.  An empty effective vector leaves `argv[0]`
as the null sentinel, which the source feeds to `strchr` (undefined
behaviour, the crash arm). -/
def exec_stage (execOk : String → Bool) (pathEnv : Option String)
    (argv : List String) (s : IoState) : ExecResult :=
  match argv with
  | [] => ExecResult.crash
  | c0 :: rest =>
    if cmd_needs_path_resolution c0 then
      (resolve_loop execOk c0 rest s (strsep_all pathEnv)).2
    else
      if execOk c0 then ExecResult.replaced c0 (c0 :: rest) s else ExecResult.err

/-- Source `execute_cmd` (lines 418-462) in full: argument-vector
construction with redirection and background stripping, then path
resolution and `execv`. -/
def execute_cmd (o : Oracles) (pathEnv : Option String) (tokens : List String)
    (s : IoState) : ExecResult :=
  match strip_stage o tokens s with
  | RedirResult.crash => ExecResult.crash
  | RedirResult.ok argv2 s2 => exec_stage o.execOk pathEnv argv2 s2

/-- Final state of the child continuation of `launch_process`: the image
was replaced, or `execute_cmd` returned `-1` and the child printed its
diagnostic and exited with status 1 (lines 404-407), or undefined
behaviour was reached with no diagnostic at all. -/
inductive ChildOutcome where
  | running (path : String) (argv : List String) (strm : IoState)
  | exited (status : Nat) (diagnostic : Option String)
  | crash
  deriving DecidableEq, Repr

/-- Mapping from the return of `execute_cmd` to the fate of the child as
written in the child branch of `launch_process`. -/
def child_outcome : ExecResult → ChildOutcome
  | ExecResult.replaced p a s => ChildOutcome.running p a s
  | ExecResult.err => ChildOutcome.exited 1 (some "This shell does not know how to run programs.")
  | ExecResult.crash => ChildOutcome.crash

/-- The diagnostic the child makes user-visible before terminating, when
there is one. -/
def outcome_diagnostic : ChildOutcome → Option String
  | ChildOutcome.exited _ d => d
  | _ => none

/-- Source `init_child_process` (lines 498-502): the three job-control
signal dispositions are set back to their default behaviour. -/
def init_child_process (_d : Dispositions) : Dispositions :=
  { sigint := Disp.dfl, sigtstp := Disp.dfl, sigttou := Disp.dfl }

/-- Process-group id and signal dispositions of the child at the moment
it enters `execute_cmd`. -/
structure ChildCtx where
  pgid : Pid
  disp : Dispositions
  deriving DecidableEq, Repr

/-- Events issued against the operating system by the shell process
(terminal, process-group, wait, signal and diagnostic actions).  The
`record` event stands for storing a background child pid in some job
bookkeeping; the source has no code that could emit it. -/
inductive Event where
  | tcgetpgrp (fd : Int)
  | tcsetpgrp (fd : Int) (pgid : Pid)
  | tcgetattr (fd : Int)
  | tcsetattr (fd : Int) (modes : Nat)
  | waitAny
  | setpgid (pid : Pid) (pgid : Pid)
  | signalSet (which : Nat) (d : Disp)
  | record (pid : Pid)
  | diag (msg : String)
  deriving DecidableEq, Repr

/-- Process-wide session state, as the globals of the source:
`shell_is_interactive`, `shell_terminal`, `shell_pgid`, `shell_tmodes`,
plus the signal dispositions currently installed in the shell. -/
structure ShellState where
  shell_is_interactive : Bool
  shell_terminal : Int
  shell_pgid : Pid
  shell_tmodes : Nat
  disp : Dispositions
  deriving DecidableEq, Repr

/-- Source `init_shell` (lines 334-362).  `shell_terminal` is standard
input (descriptor 0).  When `isatty` reports a terminal, the shell waits
until it is the foreground group (modelled in its steady case, one
`tcgetpgrp`), ignores the three job-control signals, takes the terminal
and saves the terminal modes.  When not interactive nothing else runs,
so the remaining globals keep their zero initialisation. -/
def init_shell (isatty_result : Bool) (self_pid : Pid) (tty_modes : Nat) :
    ShellState × List Event :=
  if isatty_result then
    ({ shell_is_interactive := true, shell_terminal := 0, shell_pgid := self_pid,
       shell_tmodes := tty_modes,
       disp := { sigint := Disp.ign, sigtstp := Disp.ign, sigttou := Disp.ign } },
     [Event.tcgetpgrp 0, Event.signalSet 2 Disp.ign, Event.signalSet 20 Disp.ign,
      Event.signalSet 22 Disp.ign, Event.tcsetpgrp 0 self_pid, Event.tcgetattr 0])
  else
    ({ shell_is_interactive := false, shell_terminal := 0, shell_pgid := 0,
       shell_tmodes := 0,
       disp := { sigint := Disp.dfl, sigtstp := Disp.dfl, sigttou := Disp.dfl } },
     [])

/-- Source `put_process_in_foreground` (lines 516-523): hand the terminal
to the child group, `wait(NULL)`, take the terminal back and restore the
saved terminal modes.  No step is guarded by `shell_is_interactive`. -/
def put_process_in_foreground (st : ShellState) (pid : Pid) : List Event :=
  [Event.tcsetpgrp st.shell_terminal pid, Event.waitAny,
   Event.tcsetpgrp st.shell_terminal st.shell_pgid,
   Event.tcsetattr st.shell_terminal st.shell_tmodes]

/-- Source `put_process_in_background` (lines 525-527): the body is
empty, the continue-signal call being commented out.  Nothing is stored
and no event is issued. -/
def put_process_in_background (_pid : Pid) : List Event := []

/-- The parent continuation of source `launch_process` (lines 398-416).
`fork_ret` is the value `fork` returned in the parent: the child pid, or
`-1` when `fork` failed — the source never checks, so `-1` flows into
`setpgid` and then into the foreground or background branch like a pid. -/
def launch_parent (st : ShellState) (tokens : List String) (fork_ret : Pid) :
    List Event :=
  Event.setpgid fork_ret fork_ret ::
  (if program_needs_put_in_background tokens
   then put_process_in_background fork_ret
   else put_process_in_foreground st fork_ret)

/-- The child continuation of source `launch_process` (lines 398-407):
`setpgid(pid, pid)` runs with `pid = 0` in the child, so the child joins
the fresh process group whose id is its own pid; then
`init_child_process` resets the signal dispositions, and only then does
`execute_cmd` run.  The first component is the child context in force
when `execute_cmd` starts. -/
def launch_child (st : ShellState) (self_pid : Pid) (o : Oracles)
    (pathEnv : Option String) (tokens : List String) (s : IoState) :
    ChildCtx × ChildOutcome :=
  ({ pgid := self_pid, disp := init_child_process st.disp },
   child_outcome (execute_cmd o pathEnv tokens s))

/-- The foreground process group of the controlling terminal after a
trace of events, starting from `cur`. -/
def owner_after (cur : Pid) : List Event → Pid
  | [] => cur
  | e :: rest =>
    match e with
    | Event.tcsetpgrp _ p => owner_after p rest
    | _ => owner_after cur rest

/-- Number of terminal handoffs in a trace: `tcsetpgrp` events whose
target group differs from the shell group. -/
def handoff_count (shellPgid : Pid) : List Event → Nat
  | [] => 0
  | e :: rest =>
    match e with
    | Event.tcsetpgrp _ p =>
      (if p = shellPgid then 0 else 1) + handoff_count shellPgid rest
    | _ => handoff_count shellPgid rest

/-- Semantics of `wait(NULL)`: with `live` the set of children of the
shell, the call can return upon the termination of `reaped` exactly when
`reaped` is one of those children — any of them, not a chosen one. -/
def wait_any_returns (live : List Pid) (reaped : Pid) : Prop := reaped ∈ live

/-- Whether an event touches the controlling terminal (attribute or
foreground-process-group get/set). -/
def is_terminal_op : Event → Bool
  | Event.tcgetpgrp _ => true
  | Event.tcsetpgrp _ _ => true
  | Event.tcgetattr _ => true
  | Event.tcsetattr _ _ => true
  | _ => false

/-- The argument vector the executed program should receive according to
the spec reading of the stripping code: the tokens strictly before the
first redirection operator or background marker.  This definition follows
the words of the claim and is compared against the source pipeline. -/
def spec_exec_argv (tokens : List String) : List String :=
  tokens.takeWhile (fun t => !(t == "<") && !(t == ">") && !(t == "&"))

/-- Whether an event is a user-visible diagnostic. -/
def is_diag : Event → Bool
  | Event.diag _ => true
  | _ => false

/-! Helper lemmas about the redirection scan and the stripping stage. -/

theorem scan_no_op (o : Oracles) (s : IoState) (l : List String)
    (h : ∀ t ∈ l, t ≠ "<" ∧ t ≠ ">") :
    process_redirects_io o l s = RedirResult.ok l s := by
  induction l with
  | nil => rfl
  | cons t rest ih =>
    have ht := h t (by simp)
    have hrest : ∀ u ∈ rest, u ≠ "<" ∧ u ≠ ">" := fun u hu => h u (by simp [hu])
    simp [process_redirects_io, ht.1, ht.2, ih hrest]

theorem scan_in_first (o : Oracles) (s : IoState) (f : String) (rest pre : List String)
    (hpre : ∀ t ∈ pre, t ≠ "<" ∧ t ≠ ">") (hopen : o.openR f = true) :
    process_redirects_io o (pre ++ "<" :: f :: rest) s
      = RedirResult.ok pre { s with stdin := StdStream.file f } := by
  induction pre with
  | nil => simp [process_redirects_io, hopen]
  | cons t ps ih =>
    have ht := hpre t (by simp)
    have hps : ∀ u ∈ ps, u ≠ "<" ∧ u ≠ ">" := fun u hu => hpre u (by simp [hu])
    simp [process_redirects_io, ht.1, ht.2, ih hps]

theorem scan_out_first (o : Oracles) (s : IoState) (f : String) (rest pre : List String)
    (hpre : ∀ t ∈ pre, t ≠ "<" ∧ t ≠ ">") (hopen : o.openW f = true) :
    process_redirects_io o (pre ++ ">" :: f :: rest) s
      = RedirResult.ok pre { s with stdout := StdStream.file f } := by
  induction pre with
  | nil => simp [process_redirects_io, hopen]
  | cons t ps ih =>
    have ht := hpre t (by simp)
    have hps : ∀ u ∈ ps, u ≠ "<" ∧ u ≠ ">" := fun u hu => hpre u (by simp [hu])
    simp [process_redirects_io, ht.1, ht.2, ih hps]

theorem scan_shape (o : Oracles) (s : IoState) (l : List String) :
    process_redirects_io o l s = RedirResult.crash ∨
    ∃ s1, process_redirects_io o l s
        = RedirResult.ok (l.takeWhile (fun t => !(t == "<") && !(t == ">"))) s1 := by
  induction l with
  | nil => exact Or.inr ⟨s, rfl⟩
  | cons t rest ih =>
    by_cases h1 : t = "<"
    · subst h1
      cases rest with
      | nil => exact Or.inl (by simp [process_redirects_io])
      | cons f more =>
        by_cases h2 : o.openR f
        · exact Or.inr ⟨{ s with stdin := StdStream.file f },
            by simp [process_redirects_io, h2]⟩
        · exact Or.inl (by simp [process_redirects_io, h2])
    · by_cases h2 : t = ">"
      · subst h2
        cases rest with
        | nil => exact Or.inl (by simp [process_redirects_io])
        | cons f more =>
          by_cases h3 : o.openW f
          · exact Or.inr ⟨{ s with stdout := StdStream.file f },
              by simp [process_redirects_io, h3]⟩
          · exact Or.inl (by simp [process_redirects_io, h3])
      · rcases ih with hc | ⟨s1, hok⟩
        · exact Or.inl (by simp [process_redirects_io, h1, h2, hc])
        · exact Or.inr ⟨s1, by simp [process_redirects_io, h1, h2, hok]⟩

theorem strip_eq_takeWhile (l : List String) :
    cmd_line_remove_put_process_in_background_flag l
      = l.takeWhile (fun t => !(t == "&")) := by
  induction l with
  | nil => rfl
  | cons t rest ih =>
    by_cases h : t = "&"
    · subst h; simp [cmd_line_remove_put_process_in_background_flag]
    · simp [cmd_line_remove_put_process_in_background_flag, h, ih]

theorem takeWhile_congr_on {α : Type} (p q : α → Bool) (l : List α)
    (h : ∀ t ∈ l, p t = q t) : l.takeWhile p = l.takeWhile q := by
  induction l with
  | nil => rfl
  | cons t rest ih =>
    have ht := h t (by simp)
    have hrest : ∀ u ∈ rest, p u = q u := fun u hu => h u (by simp [hu])
    rw [List.takeWhile_cons, List.takeWhile_cons, ht, ih hrest]

theorem takeWhile_all_true {α : Type} (p : α → Bool) (l : List α)
    (h : ∀ t ∈ l, p t = true) : l.takeWhile p = l := by
  induction l with
  | nil => rfl
  | cons t rest ih =>
    have ht := h t (by simp)
    have hrest : ∀ u ∈ rest, p u = true := fun u hu => h u (by simp [hu])
    rw [List.takeWhile_cons, ht, if_pos rfl, ih hrest]

theorem no_redirection_tokens (tokens : List String)
    (h : program_needs_io_redirection tokens = false) :
    ∀ t ∈ tokens, t ≠ "<" ∧ t ≠ ">" := by
  intro t ht
  simp only [program_needs_io_redirection, List.any_eq_false] at h
  have := h t ht
  constructor
  · intro he; exact this (by simp [he])
  · intro he; exact this (by simp [he])

theorem no_background_tokens (tokens : List String)
    (h : program_needs_put_in_background tokens = false) :
    ∀ t ∈ tokens, t ≠ "&" := by
  intro t ht
  simp only [program_needs_put_in_background, List.any_eq_false] at h
  have := h t ht
  intro he; exact this (by simp [he])

theorem strip_stage_ok_shape (o : Oracles) (tokens : List String) (s : IoState)
    (argv2 : List String) (s2 : IoState)
    (h : strip_stage o tokens s = RedirResult.ok argv2 s2) :
    argv2 = spec_exec_argv tokens := by
  unfold strip_stage at h
  by_cases hio : program_needs_io_redirection tokens
  · rcases scan_shape o s tokens with hc | ⟨s1, hok⟩
    · rw [if_pos hio, hc] at h
      exact absurd h (by simp)
    · rw [if_pos hio, hok] at h
      simp only [RedirResult.ok.injEq] at h
      by_cases hbg : program_needs_put_in_background tokens
      · rw [if_pos hbg] at h
        rw [← h.1, strip_eq_takeWhile, List.takeWhile_takeWhile]
        unfold spec_exec_argv
        refine takeWhile_congr_on _ _ tokens (fun t _ => ?_)
        cases ht1 : t == "<" <;> cases ht2 : t == ">" <;> cases ht3 : t == "&" <;> simp [ht1, ht2, ht3]
      · rw [if_neg hbg] at h
        rw [← h.1]
        unfold spec_exec_argv
        refine takeWhile_congr_on _ _ tokens (fun t htm => ?_)
        have hb : t ≠ "&" := no_background_tokens tokens (by simpa using hbg) t htm
        have hb2 : (t == "&") = false := by simp [hb]
        cases ht1 : t == "<" <;> cases ht2 : t == ">" <;> simp [ht1, ht2, hb2]
  · rw [if_neg hio] at h
    simp only [RedirResult.ok.injEq] at h
    have hnr := no_redirection_tokens tokens (by simpa using hio)
    by_cases hbg : program_needs_put_in_background tokens
    · rw [if_pos hbg] at h
      rw [← h.1, strip_eq_takeWhile]
      unfold spec_exec_argv
      refine takeWhile_congr_on _ _ tokens (fun t htm => ?_)
      have hr := hnr t htm
      have hr1 : (t == "<") = false := by simp [hr.1]
      have hr2 : (t == ">") = false := by simp [hr.2]
      cases ht3 : t == "&" <;> simp [hr1, hr2, ht3]
    · rw [if_neg hbg] at h
      rw [← h.1]
      unfold spec_exec_argv
      refine (takeWhile_all_true _ tokens (fun t htm => ?_)).symm
      have hr := hnr t htm
      have hb : t ≠ "&" := no_background_tokens tokens (by simpa using hbg) t htm
      simp [hr.1, hr.2, hb]

/-! Helper lemmas about the PATH resolution loop. -/

theorem resolve_loop_found (execOk : String → Bool) (cmd0 : String) (rest : List String)
    (s : IoState) (dirs : List String) (fp : String)
    (h : (dirs.map (fun d => d ++ "/" ++ cmd0)).find? execOk = some fp) :
    resolve_loop execOk cmd0 rest s dirs = (fp, ExecResult.replaced fp (fp :: rest) s) := by
  induction dirs with
  | nil => simp at h
  | cons d ds ih =>
    by_cases hd : execOk (d ++ "/" ++ cmd0)
    · rw [List.map_cons, List.find?_cons_of_pos _ hd] at h
      have hfp : d ++ "/" ++ cmd0 = fp := by injection h
      subst hfp
      simp [resolve_loop, hd]
    · rw [List.map_cons, List.find?_cons_of_neg _ hd] at h
      simp [resolve_loop, hd, ih h]

theorem resolve_loop_exhausted (execOk : String → Bool) (cmd0 : String)
    (rest : List String) (s : IoState) (dirs : List String)
    (h : (dirs.map (fun d => d ++ "/" ++ cmd0)).find? execOk = none) :
    resolve_loop execOk cmd0 rest s dirs = (cmd0, ExecResult.err) := by
  induction dirs with
  | nil => rfl
  | cons d ds ih =>
    rw [List.map_cons] at h
    have hd : execOk (d ++ "/" ++ cmd0) = false := by
      by_contra hc
      rw [List.find?_cons_of_pos _ (by revert hc; cases execOk (d ++ "/" ++ cmd0) <;> simp)] at h
      exact absurd h (by simp)
    rw [List.find?_cons_of_neg _ (by simp [hd])] at h
    simp [resolve_loop, hd, ih h]

theorem resolve_loop_replaced_shape (execOk : String → Bool) (cmd0 : String)
    (rest : List String) (s : IoState) (dirs : List String) (fp : String)
    (argvE : List String) (sE : IoState)
    (h : (resolve_loop execOk cmd0 rest s dirs).2 = ExecResult.replaced fp argvE sE) :
    argvE = fp :: rest := by
  induction dirs with
  | nil => simp [resolve_loop] at h
  | cons d ds ih =>
    by_cases hd : execOk (d ++ "/" ++ cmd0)
    · simp only [resolve_loop, hd, if_true] at h
      simp only [ExecResult.replaced.injEq] at h
      rw [← h.2.1, ← h.1]
    · simp only [resolve_loop, hd, if_false] at h
      exact ih h

theorem exec_stage_replaced_shape (execOk : String → Bool) (pathEnv : Option String)
    (c0 : String) (rest : List String) (s : IoState) (fp : String)
    (argvE : List String) (sE : IoState)
    (h : exec_stage execOk pathEnv (c0 :: rest) s = ExecResult.replaced fp argvE sE) :
    argvE = fp :: rest := by
  simp only [exec_stage] at h
  by_cases hres : cmd_needs_path_resolution c0
  · rw [if_pos hres] at h
    exact resolve_loop_replaced_shape execOk c0 rest s (strsep_all pathEnv) fp argvE sE h
  · rw [if_neg hres] at h
    by_cases he : execOk c0
    · rw [if_pos he] at h
      simp only [ExecResult.replaced.injEq] at h
      rw [← h.2.1, ← h.1]
    · rw [if_neg he] at h
      exact absurd h (by simp)

/-! Claim theorems. -/

/-- C2 counterexample: on the command line `cmd < in > out` (exactly one
input and one output operator, both files opening fine) the scan rebinds
standard input to `in` and returns; standard output is left inherited,
never bound to `out`, refuting the claim that both streams are rebound. -/
theorem C2_stdout_left_inherited :
    process_redirects_io ⟨fun _ => true, fun _ => true, fun _ => true⟩
        ["cmd", "<", "in", ">", "out"] ⟨StdStream.inherited, StdStream.inherited⟩
      = RedirResult.ok ["cmd"] ⟨StdStream.file "in", StdStream.inherited⟩ ∧
    StdStream.inherited ≠ StdStream.file "out" := by decide

/-- C2 (amended): with one `<` and one `>` present, only the first
operator encountered is applied: its stream is rebound to its operand and
the effective argument vector is truncated at that operator, so it holds
exactly the tokens before it (neither operator nor either filename
operand reaches exec); the other stream stays inherited. -/
theorem C2_first_operator_only (o : Oracles) (pre mid post : List String)
    (fIn fOut : String) (s : IoState)
    (hpre : ∀ t ∈ pre, t ≠ "<" ∧ t ≠ ">")
    (hr : o.openR fIn = true) (hw : o.openW fOut = true) :
    process_redirects_io o (pre ++ "<" :: fIn :: (mid ++ ">" :: fOut :: post)) s
      = RedirResult.ok pre { s with stdin := StdStream.file fIn } ∧
    process_redirects_io o (pre ++ ">" :: fOut :: (mid ++ "<" :: fIn :: post)) s
      = RedirResult.ok pre { s with stdout := StdStream.file fOut } :=
  ⟨scan_in_first o s fIn (mid ++ ">" :: fOut :: post) pre hpre hr,
   scan_out_first o s fOut (mid ++ "<" :: fIn :: post) pre hpre hw⟩

/-- C2 witness: the amended statement at `cat < in > out` and
`cat > out < in` with all opens succeeding. -/
theorem C2_first_operator_only_witness :
    process_redirects_io ⟨fun _ => true, fun _ => true, fun _ => true⟩
        (["cat"] ++ "<" :: "in" :: ([] ++ ">" :: "out" :: []))
        ⟨StdStream.inherited, StdStream.inherited⟩
      = RedirResult.ok ["cat"]
          { stdin := StdStream.file "in", stdout := StdStream.inherited } ∧
    process_redirects_io ⟨fun _ => true, fun _ => true, fun _ => true⟩
        (["cat"] ++ ">" :: "out" :: ([] ++ "<" :: "in" :: []))
        ⟨StdStream.inherited, StdStream.inherited⟩
      = RedirResult.ok ["cat"]
          { stdin := StdStream.inherited, stdout := StdStream.file "out" } :=
  C2_first_operator_only ⟨fun _ => true, fun _ => true, fun _ => true⟩ ["cat"] [] []
    "in" "out" ⟨StdStream.inherited, StdStream.inherited⟩ (by decide) rfl rfl

/-- C3 counterexample: with `PATH` set to the empty string, `strsep`
yields one empty field, so resolution builds the candidate `"/" + cmd`
and attempts it — the candidate list is not empty, refuting the claim
that an empty `PATH` value yields zero candidates with no attempt. -/
theorem C3_empty_path_one_candidate :
    strsep_all (some "") = [""] ∧
    attempted_paths (fun _ => false) "sh" (strsep_all (some "")) = ["/sh"] ∧
    (["/sh"] : List String) ≠ [] := by decide

/-- C3 (amended): an unset `PATH` yields zero candidates, zero `execv`
attempts and unconditional failure; an empty-string `PATH` instead yields
exactly one candidate, `"/" + cmd`, which is attempted. -/
theorem C3_path_unset_or_empty (cmd : String) (execOk : String → Bool)
    (rest : List String) (s : IoState) :
    strsep_all none = [] ∧
    attempted_paths execOk cmd (strsep_all none) = [] ∧
    (resolve_loop execOk cmd rest s (strsep_all none)).2 = ExecResult.err ∧
    attempted_paths execOk cmd (strsep_all (some "")) = ["/" ++ cmd] := by
  refine ⟨rfl, rfl, rfl, ?_⟩
  have h0 : strsep_all (some "") = [""] := rfl
  have hfp : ("" ++ "/" ++ cmd : String) = "/" ++ cmd := rfl
  rw [h0]
  simp only [attempted_paths, hfp]
  by_cases h : execOk ("/" ++ cmd)
  · rw [if_pos h]
  · rw [if_neg h]

/-- C4: when the redirection target cannot be opened, the child does not
report any failure: the null stream from the failed `fopen` goes straight
into `fileno`/`dup2` (undefined behaviour, the crash outcome), and no
user-visible diagnostic is produced — the code contradicts the stated
error-handling design. -/
theorem C4_open_failure_crashes_without_diagnostic :
    child_outcome (execute_cmd ⟨fun _ => false, fun _ => true, fun _ => false⟩
        (some "/bin") ["cat", "<", "missing"]
        ⟨StdStream.inherited, StdStream.inherited⟩)
      = ChildOutcome.crash ∧
    outcome_diagnostic ChildOutcome.crash = none := by decide

/-- C6: for a bare command name the resolution stage splits the `PATH`
value on `":"` into ordered directory candidates and tries `dir + "/" +
cmd` in that order — the first candidate accepted by `execv` wins (it is
the first match of the candidate list) and the rest are never reached;
when every candidate fails the loop ends with `argv[0]` restored to the
original command name; a name containing a path separator skips the
search and is executed directly. -/
theorem C6_path_resolution (execOk : String → Bool) (pathEnv : Option String)
    (cmd : String) (rest : List String) (s : IoState) :
    (cmd_needs_path_resolution cmd = true →
       (∀ fp, ((strsep_all pathEnv).map (fun d => d ++ "/" ++ cmd)).find? execOk = some fp →
          exec_stage execOk pathEnv (cmd :: rest) s = ExecResult.replaced fp (fp :: rest) s)
       ∧ (((strsep_all pathEnv).map (fun d => d ++ "/" ++ cmd)).find? execOk = none →
          exec_stage execOk pathEnv (cmd :: rest) s = ExecResult.err
          ∧ (resolve_loop execOk cmd rest s (strsep_all pathEnv)).1 = cmd)) ∧
    (cmd_needs_path_resolution cmd = false →
       exec_stage execOk pathEnv (cmd :: rest) s =
         (if execOk cmd then ExecResult.replaced cmd (cmd :: rest) s
          else ExecResult.err)) := by
  constructor
  · intro hres
    constructor
    · intro fp hfind
      simp only [exec_stage, if_pos hres]
      rw [resolve_loop_found execOk cmd rest s (strsep_all pathEnv) fp hfind]
    · intro hfind
      constructor
      · simp only [exec_stage, if_pos hres]
        rw [resolve_loop_exhausted execOk cmd rest s (strsep_all pathEnv) hfind]
      · rw [resolve_loop_exhausted execOk cmd rest s (strsep_all pathEnv) hfind]
  · intro hres
    simp only [exec_stage, hres, Bool.false_eq_true, if_false]

/-- C6 witness: with `PATH = "/a:/b"` and `foo` executable only at
`/b/foo`, the loop tries `/a/foo` first, then `/b/foo`, which wins. -/
theorem C6_path_resolution_witness :
    exec_stage (fun p => p == "/b/foo") (some "/a:/b") ["foo", "x"]
        ⟨StdStream.inherited, StdStream.inherited⟩
      = ExecResult.replaced "/b/foo" ["/b/foo", "x"]
          ⟨StdStream.inherited, StdStream.inherited⟩ :=
  ((C6_path_resolution (fun p => p == "/b/foo") (some "/a:/b") "foo" ["x"]
      ⟨StdStream.inherited, StdStream.inherited⟩).1 (by decide)).1 "/b/foo" (by decide)

/-- C10 counterexample: launching `ls -l &` with `PATH = "/bin"` and
`/bin/ls` executable, the vector handed to `execv` is
`["/bin/ls", "-l"]`: its first entry is the resolved full path, not the
original token, so the vector is not a prefix of the token sequence (a
prefix of length two would equal the first two tokens). -/
theorem C10_argv0_replaced :
    execute_cmd ⟨fun _ => true, fun _ => true, fun p => p == "/bin/ls"⟩ (some "/bin")
        ["ls", "-l", "&"] ⟨StdStream.inherited, StdStream.inherited⟩
      = ExecResult.replaced "/bin/ls" ["/bin/ls", "-l"]
          ⟨StdStream.inherited, StdStream.inherited⟩ ∧
    ["/bin/ls", "-l"] ≠ (["ls", "-l", "&"] : List String).take 2 := by decide

/-- C10 (amended): whenever the stripping stage succeeds, the effective
argument vector is exactly the tokens strictly before the first `"<"`,
`">"` or `"&"` token (the null sentinel written into that slot truncates
the vector, excluding every later token, ordinary arguments included);
the vector the executed program then receives is that prefix with its
first entry possibly replaced by the resolved full path. -/
theorem C10_exec_argv (o : Oracles) (tokens : List String) (s : IoState)
    (argv2 : List String) (s2 : IoState)
    (h : strip_stage o tokens s = RedirResult.ok argv2 s2) :
    argv2 = spec_exec_argv tokens ∧
    (∀ (execOk : String → Bool) (pathEnv : Option String) (fp : String)
       (argvE : List String) (sE : IoState),
       exec_stage execOk pathEnv argv2 s2 = ExecResult.replaced fp argvE sE →
       argvE = fp :: (spec_exec_argv tokens).drop 1) := by
  have h1 : argv2 = spec_exec_argv tokens := strip_stage_ok_shape o tokens s argv2 s2 h
  refine ⟨h1, ?_⟩
  intro execOk pathEnv fp argvE sE he
  cases hv : argv2 with
  | nil => rw [hv] at he; exact absurd he (by simp [exec_stage])
  | cons c0 rest =>
    rw [hv] at he
    have hshape := exec_stage_replaced_shape execOk pathEnv c0 rest s2 fp argvE sE he
    rw [hshape, ← h1, hv]
    rfl

/-- C10 witness: the amended statement at `echo hi > out` — the stripped
vector is `["echo", "hi"]`, the tokens before the first operator. -/
theorem C10_exec_argv_witness :
    (["echo", "hi"] : List String) = spec_exec_argv ["echo", "hi", ">", "out"] :=
  (C10_exec_argv ⟨fun _ => true, fun _ => true, fun _ => true⟩
    ["echo", "hi", ">", "out"] ⟨StdStream.inherited, StdStream.inherited⟩
    ["echo", "hi"] ⟨StdStream.inherited, StdStream.file "out"⟩ (by decide)).1

/-- C1 counterexample: the foreground launch of child 2 performs a
wait-any (`wait(NULL)`), not a wait on the specific child, and with two
live children (foreground 2, background 3) that wait can return upon the
termination of child 3 while child 2 still runs — refuting the claim that
the parent blocks until the specific foreground child terminates. -/
theorem C1_wait_any_not_specific :
    Event.waitAny ∈ launch_parent ⟨true, 0, 10, 7, ⟨Disp.ign, Disp.ign, Disp.ign⟩⟩ ["ls"] 2 ∧
    wait_any_returns [2, 3] 3 ∧ (3 : Pid) ≠ 2 :=
  ⟨by decide, by simp [wait_any_returns], by decide⟩

/-- C1 (amended): for a command line without a background marker, the
parent trace hands the terminal to the child group exactly once, then
blocks in a single wait-any — which returns upon the termination of some
child of the shell, the specific foreground child only when it is the
sole child — and after the wait the terminal unconditionally reverts to
the shell group with the saved terminal modes restored. -/
theorem C1_foreground_arbiter (st : ShellState) (tokens : List String) (pid : Pid)
    (live : List Pid) (reaped : Pid)
    (hbg : program_needs_put_in_background tokens = false)
    (hpid : pid ≠ st.shell_pgid)
    (hw : wait_any_returns live reaped) :
    handoff_count st.shell_pgid (launch_parent st tokens pid) = 1 ∧
    (∃ pre post, launch_parent st tokens pid = pre ++ Event.waitAny :: post ∧
       handoff_count st.shell_pgid post = 0 ∧
       (∀ q, owner_after q post = st.shell_pgid) ∧
       Event.tcsetattr st.shell_terminal st.shell_tmodes ∈ post) ∧
    owner_after st.shell_pgid (launch_parent st tokens pid) = st.shell_pgid ∧
    reaped ∈ live ∧
    (live = [pid] → reaped = pid) := by
  have htr : launch_parent st tokens pid =
      [Event.setpgid pid pid, Event.tcsetpgrp st.shell_terminal pid, Event.waitAny,
       Event.tcsetpgrp st.shell_terminal st.shell_pgid,
       Event.tcsetattr st.shell_terminal st.shell_tmodes] := by
    simp [launch_parent, hbg, put_process_in_foreground]
  refine ⟨?_, ?_, ?_, hw, ?_⟩
  · rw [htr]; simp [handoff_count, hpid]
  · refine ⟨[Event.setpgid pid pid, Event.tcsetpgrp st.shell_terminal pid],
      [Event.tcsetpgrp st.shell_terminal st.shell_pgid,
       Event.tcsetattr st.shell_terminal st.shell_tmodes], by rw [htr]; rfl,
      by simp [handoff_count], fun q => by simp [owner_after], by simp⟩
  · rw [htr]; simp [owner_after]
  · intro hl
    rw [hl] at hw
    have hm : reaped ∈ [pid] := hw
    simpa using hm

/-- C1 witness: the amended statement at a concrete interactive session
(shell group 10, terminal modes 7), foreground child 42 being the sole
live child. -/
theorem C1_foreground_arbiter_witness :
    handoff_count 10 (launch_parent ⟨true, 0, 10, 7, ⟨Disp.ign, Disp.ign, Disp.ign⟩⟩ ["ls"] 42) = 1 ∧
    (∃ pre post,
       launch_parent ⟨true, 0, 10, 7, ⟨Disp.ign, Disp.ign, Disp.ign⟩⟩ ["ls"] 42
         = pre ++ Event.waitAny :: post ∧
       handoff_count 10 post = 0 ∧
       (∀ q, owner_after q post = 10) ∧
       Event.tcsetattr 0 7 ∈ post) ∧
    owner_after 10 (launch_parent ⟨true, 0, 10, 7, ⟨Disp.ign, Disp.ign, Disp.ign⟩⟩ ["ls"] 42) = 10 ∧
    (42 : Pid) ∈ [(42 : Pid)] ∧
    ([(42 : Pid)] = [(42 : Pid)] → (42 : Pid) = 42) :=
  C1_foreground_arbiter ⟨true, 0, 10, 7, ⟨Disp.ign, Disp.ign, Disp.ign⟩⟩ ["ls"] 42
    [42] 42 (by decide) (by decide) (by simp [wait_any_returns])

/-- C5 counterexample: for `sleep 100 &` the whole parent-side trace is
the single `setpgid` call — nothing records the child pid 7 (there is no
job bookkeeping at all), refuting the part of the claim that says the
parent records the child pid. -/
theorem C5_nothing_recorded :
    launch_parent ⟨true, 0, 10, 7, ⟨Disp.ign, Disp.ign, Disp.ign⟩⟩ ["sleep", "100", "&"] 7
      = [Event.setpgid 7 7] ∧
    Event.record 7 ∉ [Event.setpgid 7 7] := by decide

/-- C5 (amended): for a command line containing the background marker the
parent performs only the `setpgid` call: it does not wait, never touches
the terminal foreground group (ownership stays with the shell), and the
child pid is passed to `put_process_in_background`, whose body is empty,
so nothing is recorded. -/
theorem C5_background_no_wait_no_handoff (st : ShellState) (tokens : List String)
    (pid : Pid) (hbg : program_needs_put_in_background tokens = true) :
    launch_parent st tokens pid = [Event.setpgid pid pid] ∧
    Event.waitAny ∉ launch_parent st tokens pid ∧
    (∀ fd p, Event.tcsetpgrp fd p ∉ launch_parent st tokens pid) ∧
    owner_after st.shell_pgid (launch_parent st tokens pid) = st.shell_pgid ∧
    (∀ p, Event.record p ∉ launch_parent st tokens pid) := by
  have htr : launch_parent st tokens pid = [Event.setpgid pid pid] := by
    simp [launch_parent, hbg, put_process_in_background]
  rw [htr]
  exact ⟨rfl, by simp, fun fd p => by simp, by simp [owner_after], fun p => by simp⟩

/-- C5 witness: the amended statement at `sleep 100 &` with child 7. -/
theorem C5_background_no_wait_no_handoff_witness :
    launch_parent ⟨true, 0, 10, 7, ⟨Disp.ign, Disp.ign, Disp.ign⟩⟩ ["sleep", "100", "&"] 7
      = [Event.setpgid 7 7] ∧
    Event.waitAny ∉ launch_parent ⟨true, 0, 10, 7, ⟨Disp.ign, Disp.ign, Disp.ign⟩⟩ ["sleep", "100", "&"] 7 ∧
    (∀ fd p, Event.tcsetpgrp fd p ∉ launch_parent ⟨true, 0, 10, 7, ⟨Disp.ign, Disp.ign, Disp.ign⟩⟩ ["sleep", "100", "&"] 7) ∧
    owner_after 10 (launch_parent ⟨true, 0, 10, 7, ⟨Disp.ign, Disp.ign, Disp.ign⟩⟩ ["sleep", "100", "&"] 7) = 10 ∧
    (∀ p, Event.record p ∉ launch_parent ⟨true, 0, 10, 7, ⟨Disp.ign, Disp.ign, Disp.ign⟩⟩ ["sleep", "100", "&"] 7) :=
  C5_background_no_wait_no_handoff ⟨true, 0, 10, 7, ⟨Disp.ign, Disp.ign, Disp.ign⟩⟩
    ["sleep", "100", "&"] 7 (by decide)

/-- C7: in an interactive session the shell ignores the three job-control
signals; at launch the child joins the brand-new process group whose id
equals its own pid (`setpgid(pid, pid)` with `pid = 0` in the child, and
the parent issues the matching `setpgid(pid, pid)` as its first action)
and resets all three dispositions back to default before `execute_cmd`
runs. -/
theorem C7_child_group_and_signal_reset (self_pid pg : Pid) (m : Nat) (o : Oracles)
    (pathEnv : Option String) (tokens : List String) (s : IoState) :
    (init_shell true pg m).1.disp = ⟨Disp.ign, Disp.ign, Disp.ign⟩ ∧
    (launch_child (init_shell true pg m).1 self_pid o pathEnv tokens s).1
      = ⟨self_pid, ⟨Disp.dfl, Disp.dfl, Disp.dfl⟩⟩ ∧
    (launch_parent (init_shell true pg m).1 tokens self_pid).head?
      = some (Event.setpgid self_pid self_pid) := by
  refine ⟨by simp [init_shell], ?_, by simp [launch_parent]⟩
  simp [launch_child, init_shell, init_child_process]

/-- C8 counterexample: in a non-interactive session (all of the terminal
setup of `init_shell` skipped), a foreground launch still issues terminal
operations — `put_process_in_foreground` runs `tcsetpgrp`/`tcsetattr`
unconditionally — refuting the claim that they are skipped entirely. -/
theorem C8_noninteractive_launch_touches_terminal :
    (init_shell false 5 0).1.shell_is_interactive = false ∧
    (init_shell false 5 0).2 = [] ∧
    ((launch_parent (init_shell false 5 0).1 ["ls"] 7).any is_terminal_op = true) := by
  decide

/-- C8 (amended): only `init_shell` guards its terminal operations on
interactivity (a non-interactive startup performs none); a foreground
launch — the session state being arbitrary, so in interactive and
non-interactive sessions alike — performs the full unguarded sequence
`tcsetpgrp` (to the child), `wait`, `tcsetpgrp` (back to the shell),
`tcsetattr`; a background launch performs no terminal operation at
all. -/
theorem C8_terminal_ops_unguarded_in_launch (self_pid : Pid) (tty_modes : Nat)
    (st st2 : ShellState) (tokens tokens2 : List String) (pid pid2 : Pid)
    (hfg : program_needs_put_in_background tokens = false)
    (hbg : program_needs_put_in_background tokens2 = true) :
    (init_shell false self_pid tty_modes).2.filter is_terminal_op = [] ∧
    (init_shell false self_pid tty_modes).1.shell_is_interactive = false ∧
    launch_parent st tokens pid =
      [Event.setpgid pid pid, Event.tcsetpgrp st.shell_terminal pid, Event.waitAny,
       Event.tcsetpgrp st.shell_terminal st.shell_pgid,
       Event.tcsetattr st.shell_terminal st.shell_tmodes] ∧
    (launch_parent st2 tokens2 pid2).filter is_terminal_op = [] := by
  refine ⟨by simp [init_shell], by simp [init_shell], ?_, ?_⟩
  · simp [launch_parent, hfg, put_process_in_foreground]
  · simp [launch_parent, hbg, put_process_in_background, is_terminal_op]

/-- C8 witness: the amended statement at a concrete non-interactive
session state, launching `ls` in the foreground (the full terminal
sequence is issued despite the session not being interactive) and
`sleep 100 &` in the background (no terminal operation). -/
theorem C8_terminal_ops_unguarded_in_launch_witness :
    (init_shell false 5 0).2.filter is_terminal_op = [] ∧
    (init_shell false 5 0).1.shell_is_interactive = false ∧
    launch_parent ⟨false, 0, 0, 0, ⟨Disp.dfl, Disp.dfl, Disp.dfl⟩⟩ ["ls"] 7 =
      [Event.setpgid 7 7, Event.tcsetpgrp 0 7, Event.waitAny,
       Event.tcsetpgrp 0 0, Event.tcsetattr 0 0] ∧
    (launch_parent ⟨false, 0, 0, 0, ⟨Disp.dfl, Disp.dfl, Disp.dfl⟩⟩
        ["sleep", "100", "&"] 9).filter is_terminal_op = [] :=
  C8_terminal_ops_unguarded_in_launch 5 0
    ⟨false, 0, 0, 0, ⟨Disp.dfl, Disp.dfl, Disp.dfl⟩⟩
    ⟨false, 0, 0, 0, ⟨Disp.dfl, Disp.dfl, Disp.dfl⟩⟩
    ["ls"] ["sleep", "100", "&"] 7 9 (by decide) (by decide)

/-- C9: the source never checks the return of `fork`; when it fails the
parent treats `-1` as a child pid, so for the foreground launch of `ls`
it issues `setpgid(-1, -1)`, hands the terminal to process group `-1`,
performs the wait, and emits no diagnostic — contradicting the stated
design that the failure be surfaced and no wait or terminal handoff be
performed for the never-created child. -/
theorem C9_fork_failure_unchecked :
    Event.waitAny ∈ launch_parent ⟨true, 0, 10, 7, ⟨Disp.ign, Disp.ign, Disp.ign⟩⟩ ["ls"] (-1) ∧
    Event.setpgid (-1) (-1) ∈ launch_parent ⟨true, 0, 10, 7, ⟨Disp.ign, Disp.ign, Disp.ign⟩⟩ ["ls"] (-1) ∧
    Event.tcsetpgrp 0 (-1) ∈ launch_parent ⟨true, 0, 10, 7, ⟨Disp.ign, Disp.ign, Disp.ign⟩⟩ ["ls"] (-1) ∧
    (launch_parent ⟨true, 0, 10, 7, ⟨Disp.ign, Disp.ign, Disp.ign⟩⟩ ["ls"] (-1)).any is_diag = false := by
  decide
